import Mathlib

/-!
Verification development for the 7heBlackLand/7heredland repository manager
scripts.  The scripts are interactive Python tools wrapping the GitHub REST
API and local git subprocess calls.  This file gives a shallow embedding of
the recurring Git synchronization / reconciliation logic:

* the remote-URL tokenization (`ensure_remote_tokenized` in
  blackland-manager.py lines 164-174, `fix_remote_with_token` in
  git-full-manager.py lines 129-137, and the inline clone flow of
  git_pull.py lines 44-52);
* the default-branch lookup (`get_github_default_branch`,
  blackland-manager.py lines 148-158; `get_default_branch`,
  git-full-manager.py lines 116-126);
* the branch alignment procedure (`ensure_branch_alignment_local`,
  blackland-manager.py lines 176-211);
* the push-with-recovery procedure (`safe_push`, blackland-manager.py
  lines 214-238) and the upload push recovery inside
  `upload_file_to_github` (blackland-manager.py lines 294-308);
* the batch workspace loop (`batch_workspace_manager`,
  blackland-manager.py lines 540-563).

Strings manipulated character-by-character (URLs, tokens, log lines) are
modelled as `List Char`; other strings (branch names, paths) as `String`.
Each git subprocess call is modelled by its success/failure outcome, taken
as an input of the embedded function, and the sequence of git commands a
procedure issues is returned as an explicit trace.
-/

/-! ### String helpers

`replaceAll` mirrors Python `str.replace(old, new)`: every non-overlapping
occurrence of the pattern is replaced, scanning left to right.  It is
written with an explicit fuel argument (the length of the scanned list) so
that it is structurally recursive and evaluates inside the kernel. -/

def replaceAllAux (pat rep : List Char) : Nat → List Char → List Char
  | _, [] => []
  | 0, c :: rest => c :: rest
  | fuel + 1, c :: rest =>
    if pat <+: (c :: rest) ∧ pat ≠ [] then
      rep ++ replaceAllAux pat rep fuel (List.drop (pat.length - 1) rest)
    else
      c :: replaceAllAux pat rep fuel rest

def replaceAll (pat rep s : List Char) : List Char :=
  replaceAllAux pat rep s.length s

/-- Mirrors Python `str.split(sep)` for a one-character separator:
`splitOnChar '/' "a/b"` gives `["a", "b"]`, and the result is never the
empty list (splitting the empty string gives `[""]`). -/
def splitOnChar (sep : Char) : List Char → List (List Char)
  | [] => [[]]
  | c :: rest =>
    if c = sep then
      [] :: splitOnChar sep rest
    else
      match splitOnChar sep rest with
      | [] => [[c]]
      | g :: gs => (c :: g) :: gs

/-- Mirrors the Python indexing `xs[-1]` on a non-empty list
(on `[]` it returns `[]`, a case `splitOnChar` never produces). -/
def lastD : List (List Char) → List Char
  | [] => []
  | [g] => g
  | _ :: g :: gs => lastD (g :: gs)

/-! ### Remote-URL tokenization

blackland-manager.py lines 164-174:

    origin = ... "remote", "get-url", "origin" ...
    if origin.startswith("https://") and "@" not in origin:
        new = origin.replace("https://", f"https://TOKEN@")
        ... "remote", "set-url", "origin", new ...

The embedded function maps the current origin URL to the URL stored back
into the remote configuration. -/

def ensure_remote_tokenized (token url : List Char) : List Char :=
  if ("https://".toList <+: url) ∧ '@' ∉ url then
    replaceAll "https://".toList ("https://".toList ++ token ++ ['@']) url
  else url

/-- git-full-manager.py lines 129-137 (`fix_remote_with_token`): identical
rewrite, with the two conjuncts of the guard written in the other order. -/
def fix_remote_with_token (token url : List Char) : List Char :=
  if '@' ∉ url ∧ ("https://".toList <+: url) then
    replaceAll "https://".toList ("https://".toList ++ token ++ ['@']) url
  else url

/-! ### git_pull.py clone flow (lines 44-52)

    if repo_url.startswith("https://") and "@" not in repo_url:
        repo_url = repo_url.replace("https://", f"https://TOKEN@")
    ...
    run(["git", "clone", repo_url, REPO_PATH])      -- prints the command
    log_action(f"Cloned repository from REPO_URL")  -- appends to log file
-/

def git_pull_clone_url (token url : List Char) : List Char :=
  if ("https://".toList <+: url) ∧ '@' ∉ url then
    replaceAll "https://".toList ("https://".toList ++ token ++ ['@']) url
  else url

/-- The activity-record line `git_pull.py` line 52 appends to
`git_actions.log` after a successful clone (timestamp elided). -/
def git_pull_clone_log_line (token url : List Char) : List Char :=
  "Cloned repository from ".toList ++ git_pull_clone_url token url

/-! ### Default-branch lookup

blackland-manager.py lines 148-158.  The outcome of `requests.get` is
modelled by `HttpResult`: either the call raised (network failure,
timeout, unparsable body) or it returned a response with a success flag
(`r.ok`) and an optional `default_branch` JSON field. -/

inductive HttpResult where
  | failure : HttpResult
  | response (ok : Bool) (default_branch : Option String) : HttpResult

def get_github_default_branch (owner repo_name : String) (r : HttpResult) : String :=
  match owner, repo_name, r with
  | _, _, HttpResult.failure => "main"
  | _, _, HttpResult.response ok db => if ok then db.getD "main" else "main"

/-! ### Branch alignment (blackland-manager.py lines 176-211)

The determination of the remote default branch (lines 184-196): if a
repository name was supplied by the caller, query the GitHub API;
otherwise read `git symbolic-ref refs/remotes/origin/HEAD` and take the
last `/`-separated component; on failure of either, the initial value
`"main"` stands. -/

def determine_default_branch (login : String) (repo_name : Option String)
    (api : HttpResult) (symref : Except Unit String) : String :=
  match repo_name with
  | some n => get_github_default_branch login n api
  | none =>
    match symref with
    | Except.error _ => "main"
    | Except.ok out =>
      if out.data ≠ [] ∧ ("refs/remotes/origin/".toList <+: out.data) then
        List.asString (lastD (splitOnChar '/' out.data))
      else "main"

/-- Inputs of one alignment pass: the authenticated login, the working-copy
path, the optional repository name, the API outcome, the symbolic-ref
outcome, the `rev-parse --abbrev-ref HEAD` outcome, and the outcomes of
the (best-effort, `check=False`) checkout and set-upstream calls.  The
initial `git fetch --all` (line 183) is also best-effort and has no
observable effect in the model. -/
structure AlignEnv where
  login : String
  repoPath : String
  repoName : Option String
  api : HttpResult
  symref : Except Unit String
  localBranch : Except Unit String
  checkoutOk : Bool
  upstreamOk : Bool

def align_default (env : AlignEnv) : String :=
  determine_default_branch env.login env.repoName env.api env.symref

/-- Lines 199-202: `rev-parse --abbrev-ref HEAD`, defaulting to the
already-computed default branch when the call fails. -/
def align_local (env : AlignEnv) : String :=
  match env.localBranch with
  | Except.ok b => b
  | Except.error _ => align_default env

/-- Observable result of an alignment pass: the branch checked out
afterwards, the console lines printed, and the lines appended to the
activity record (quoting punctuation of the console message elided). -/
structure AlignResult where
  finalBranch : String
  console : List String
  log : List String

/-- blackland-manager.py lines 204-209: when the local branch differs from
the default, announce, run `git checkout default` (`check=False`: on
failure the branch is left unchanged and execution continues), run
`git branch --set-upstream-to` (`check=False`), and append the `Aligned`
line to the activity record unconditionally. -/
def ensure_branch_alignment_local (env : AlignEnv) : AlignResult :=
  if align_local env ≠ align_default env then
    { finalBranch := if env.checkoutOk then align_default env else align_local env
      console := ["🔁 Aligning branch: local " ++ align_local env
          ++ " → remote default " ++ align_default env ++ " in " ++ env.repoPath]
      log := ["Aligned " ++ env.repoPath ++ " branch " ++ align_local env
          ++ " -> " ++ align_default env] }
  else
    { finalBranch := align_local env
      console := []
      log := [] }

/-! ### Push with recovery (blackland-manager.py lines 214-238)

    try:
        run_cmd(["git", "-C", repo_path, "push"])
        return True
    except subprocess.CalledProcessError:
        try:
            run_cmd(["git", "-C", repo_path, "fetch", "origin"])
            try:
                run_cmd(["git", "-C", repo_path, "pull", "--rebase"])
            except subprocess.CalledProcessError:
                run_cmd(["git", "-C", repo_path, "push", "--force-with-lease"])
            return True
        except Exception:
            return False

Each `run_cmd` issues its command and raises on a non-zero exit; a failing
command therefore still appears in the trace.  The environment records
which of the four commands would succeed. -/

inductive GitCmd where
  | push
  | fetchOrigin
  | pullRebase
  | forceWithLease
deriving DecidableEq, BEq

structure PushEnv where
  pushOk : Bool
  fetchOk : Bool
  rebaseOk : Bool
  forceOk : Bool

/-- Returns the success flag returned by `safe_push` together with the
trace of git commands issued, in order. -/
def safe_push (env : PushEnv) : Bool × List GitCmd :=
  if env.pushOk then
    (true, [GitCmd.push])
  else
    if ¬ env.fetchOk then
      (false, [GitCmd.push, GitCmd.fetchOrigin])
    else if env.rebaseOk then
      (true, [GitCmd.push, GitCmd.fetchOrigin, GitCmd.pullRebase])
    else if env.forceOk then
      (true, [GitCmd.push, GitCmd.fetchOrigin, GitCmd.pullRebase, GitCmd.forceWithLease])
    else
      (false, [GitCmd.push, GitCmd.fetchOrigin, GitCmd.pullRebase, GitCmd.forceWithLease])

/-! ### Upload push recovery (blackland-manager.py lines 296-308)

    origin = gr.remote(name="origin")
    try:
        origin.push(refspec=f"BRANCH:BRANCH")
    except Exception:
        # recovery: fetch and push --force-with-lease
        try:
            gr.git.fetch("origin")
            origin.push(refspec=f"BRANCH:BRANCH", force=True)
        except Exception:
            return False

GitPython's `Remote.push(..., force=True)` passes `--force` to git: an
unconditional force push, not `--force-with-lease` (despite the comment in
the source). -/

inductive UploadCmd where
  | pushRefspec
  | fetchOrigin
  | forceUnconditional
deriving DecidableEq

structure UploadEnv where
  pushOk : Bool
  fetchOk : Bool
  forceOk : Bool

def upload_push_recovery (env : UploadEnv) : Bool × List UploadCmd :=
  if env.pushOk then
    (true, [UploadCmd.pushRefspec])
  else if ¬ env.fetchOk then
    (false, [UploadCmd.pushRefspec, UploadCmd.fetchOrigin])
  else if env.forceOk then
    (true, [UploadCmd.pushRefspec, UploadCmd.fetchOrigin, UploadCmd.forceUnconditional])
  else
    (false, [UploadCmd.pushRefspec, UploadCmd.fetchOrigin, UploadCmd.forceUnconditional])

/-! ### Batch workspace loop (blackland-manager.py lines 540-563)

    for d in repo_dirs:
        ensure_remote_tokenized(path)
        ensure_branch_alignment_local(path, d)
        try:
            if choice in ("1", "3"):
                run_cmd(["git", "-C", path, "pull"])
            if choice in ("2", "3"):
                run_cmd(["git", "-C", path, "add", "."])
                commit = subprocess.run([... "commit", "-m", commit_msg])
                if commit.returncode == 0:
                    pushed = safe_push(path, commit_msg)
        except subprocess.CalledProcessError as e:
            console.print(...); log_action(f"Git error ...")

`run_cmd` raises `CalledProcessError` on failure; the `commit` call does
not check its exit code; `safe_push` returns a Bool and never raises. -/

inductive StepErr where
  | pullFailed
  | addFailed
deriving DecidableEq

structure RepoEnv where
  name : String
  originUrl : List Char
  align : AlignEnv
  pullOk : Bool
  addOk : Bool
  commitOk : Bool
  push : PushEnv

/-- The body of the loop inside the `try`, with `CalledProcessError`
modelled by `Except.error`.  `Except.ok r` carries `some b` when a commit
was made and `safe_push` ran returning `b`, `none` otherwise. -/
def process_repo_raw (choice : Nat) (env : RepoEnv) : Except StepErr (Option Bool) :=
  if (choice = 1 ∨ choice = 3) ∧ env.pullOk = false then
    Except.error StepErr.pullFailed
  else if choice = 2 ∨ choice = 3 then
    if env.addOk = false then
      Except.error StepErr.addFailed
    else if env.commitOk then
      Except.ok (some (safe_push env.push).1)
    else
      Except.ok none
  else
    Except.ok none

inductive BatchStep where
  | completed (pushed : Option Bool)
  | gitError (e : StepErr)
deriving DecidableEq

/-- Per-repository outcome of one batch iteration: the rewritten origin
URL, the alignment result, and the structured outcome of the try-block
(the `except` clause turns a `CalledProcessError` into a printed/logged
`gitError` outcome and the loop continues with the next repository). -/
structure RepoOutcome where
  newOrigin : List Char
  aligned : AlignResult
  step : BatchStep

def process_repo (token : List Char) (choice : Nat) (env : RepoEnv) : RepoOutcome :=
  { newOrigin := ensure_remote_tokenized token env.originUrl
    aligned := ensure_branch_alignment_local env.align
    step :=
      match process_repo_raw choice env with
      | Except.ok r => BatchStep.completed r
      | Except.error e => BatchStep.gitError e }

/-- The loop itself: every directory in the workspace is visited in order
and processed to completion. -/
def batch_workspace_manager (token : List Char) (choice : Nat) :
    List RepoEnv → List RepoOutcome
  | [] => []
  | e :: rest => process_repo token choice e :: batch_workspace_manager token choice rest

/-! ### Helper lemmas -/

theorem replaceAllAux_cons (pat rep : List Char) (fuel : Nat) (c : Char)
    (rest : List Char) :
    replaceAllAux pat rep (fuel + 1) (c :: rest)
      = if pat <+: (c :: rest) ∧ pat ≠ [] then
          rep ++ replaceAllAux pat rep fuel (List.drop (pat.length - 1) rest)
        else
          c :: replaceAllAux pat rep fuel rest := rfl

theorem mem_replaceAll_of_prefix (pat rep url : List Char)
    (hpre : pat <+: url) (hne : pat ≠ []) (ha : '@' ∈ rep) :
    '@' ∈ replaceAll pat rep url := by
  cases url with
  | nil => exact absurd (List.prefix_nil.mp hpre) hne
  | cons c rest =>
    have h1 : replaceAll pat rep (c :: rest)
        = rep ++ replaceAllAux pat rep rest.length (List.drop (pat.length - 1) rest) := by
      show replaceAllAux pat rep (c :: rest).length (c :: rest) = _
      rw [List.length_cons, replaceAllAux_cons, if_pos ⟨hpre, hne⟩]
    rw [h1]
    exact List.mem_append_left _ ha

theorem splitOnChar_ne_nil (sep : Char) (s : List Char) :
    splitOnChar sep s ≠ [] := by
  induction s with
  | nil => simp [splitOnChar]
  | cons c rest ih =>
    unfold splitOnChar
    by_cases hc : c = sep
    · simp [hc]
    · rw [if_neg hc]
      rcases h : splitOnChar sep rest with _ | ⟨g, gs⟩ <;> simp

theorem splitOnChar_not_mem (sep : Char) (s : List Char) (h : sep ∉ s) :
    splitOnChar sep s = [s] := by
  induction s with
  | nil => rfl
  | cons c rest ih =>
    have hc : ¬ c = sep := fun hc => h (hc ▸ List.mem_cons_self c rest)
    have hr : sep ∉ rest := fun hm => h (List.mem_cons_of_mem _ hm)
    unfold splitOnChar
    rw [if_neg hc, ih hr]

theorem splitOnChar_cons (sep c : Char) (rest : List Char) :
    splitOnChar sep (c :: rest)
      = if c = sep then
          [] :: splitOnChar sep rest
        else
          match splitOnChar sep rest with
          | [] => [[c]]
          | g :: gs => (c :: g) :: gs := rfl

theorem two_le_length_splitOnChar (sep : Char) (s : List Char) (h : sep ∈ s) :
    2 ≤ (splitOnChar sep s).length := by
  induction s with
  | nil => cases h
  | cons c rest ih =>
    rw [splitOnChar_cons]
    by_cases hc : c = sep
    · rw [if_pos hc]
      have h1 : splitOnChar sep rest ≠ [] := splitOnChar_ne_nil sep rest
      have h2 : 0 < (splitOnChar sep rest).length := List.length_pos.mpr h1
      simp only [List.length_cons]
      omega
    · rw [if_neg hc]
      have hr : sep ∈ rest := by
        rcases List.mem_cons.mp h with h1 | h2
        · exact absurd h1.symm hc
        · exact h2
      have h2 := ih hr
      rcases hsp : splitOnChar sep rest with _ | ⟨g, gs⟩
      · exact absurd hsp (splitOnChar_ne_nil sep rest)
      · rw [hsp] at h2
        show 2 ≤ ((c :: g) :: gs).length
        simpa using h2

theorem lastD_cons (g : List Char) (l : List (List Char)) (h : l ≠ []) :
    lastD (g :: l) = lastD l := by
  cases l with
  | nil => exact absurd rfl h
  | cons g2 gs => rfl

theorem lastD_splitOnChar_cons (sep c : Char) (s : List Char) (h : sep ∈ s) :
    lastD (splitOnChar sep (c :: s)) = lastD (splitOnChar sep s) := by
  rw [splitOnChar_cons]
  by_cases hc : c = sep
  · rw [if_pos hc]
    exact lastD_cons _ _ (splitOnChar_ne_nil sep s)
  · rw [if_neg hc]
    rcases hsp : splitOnChar sep s with _ | ⟨g, gs⟩
    · exact absurd hsp (splitOnChar_ne_nil sep s)
    · have h2 := two_le_length_splitOnChar sep s h
      rw [hsp] at h2
      have hgs : gs ≠ [] := by
        cases gs with
        | nil => simp at h2
        | cons _ _ => simp
      show lastD ((c :: g) :: gs) = lastD (g :: gs)
      rw [lastD_cons _ _ hgs, lastD_cons _ _ hgs]

theorem lastD_splitOnChar_append (sep : Char) (p s : List Char) (h : sep ∈ s) :
    lastD (splitOnChar sep (p ++ s)) = lastD (splitOnChar sep s) := by
  induction p with
  | nil => rfl
  | cons c p ih =>
    have hm : sep ∈ p ++ s := List.mem_append_right p h
    rw [List.cons_append, lastD_splitOnChar_cons sep c (p ++ s) hm, ih]

/-! ### Claim theorems -/

/-- C10: the remote-URL tokenization is idempotent.  It rewrites the
origin URL only when the URL starts with "https://" and contains no "@";
the rewritten URL always contains "@" (the inserted separator), so a
second invocation on the same working copy leaves the origin URL
unchanged and the credential is never embedded twice. -/
theorem ensure_remote_tokenized_idempotent (token url : List Char) :
    ensure_remote_tokenized token (ensure_remote_tokenized token url)
      = ensure_remote_tokenized token url
    ∧ (¬ (("https://".toList <+: url) ∧ '@' ∉ url) →
        ensure_remote_tokenized token url = url) := by
  constructor
  · by_cases h : ("https://".toList <+: url) ∧ '@' ∉ url
    · have hmem : '@' ∈ ensure_remote_tokenized token url := by
        unfold ensure_remote_tokenized
        rw [if_pos h]
        exact mem_replaceAll_of_prefix _ _ _ h.1 (by decide) (by simp)
      set r := ensure_remote_tokenized token url with hr
      show ensure_remote_tokenized token r = r
      unfold ensure_remote_tokenized
      rw [if_neg]
      intro hc
      exact hc.2 hmem
    · have hfix : ensure_remote_tokenized token url = url := by
        unfold ensure_remote_tokenized
        rw [if_neg h]
      rw [hfix]
      exact hfix
  · intro h
    unfold ensure_remote_tokenized
    rw [if_neg h]

/-- C10 witness: a plain https URL is rewritten once and a second pass is
the identity; a URL that already carries a userinfo part (here an ssh-form
remote with an "@") is left untouched. -/
theorem ensure_remote_tokenized_idempotent_witness :
    ensure_remote_tokenized "ghp_token".toList
        (ensure_remote_tokenized "ghp_token".toList
          "https://github.com/7heBlackLand/7heredland.git".toList)
      = ensure_remote_tokenized "ghp_token".toList
          "https://github.com/7heBlackLand/7heredland.git".toList
    ∧ ensure_remote_tokenized "ghp_token".toList
        "git@github.com:7heBlackLand/7heredland.git".toList
      = "git@github.com:7heBlackLand/7heredland.git".toList :=
  ⟨(ensure_remote_tokenized_idempotent "ghp_token".toList
      "https://github.com/7heBlackLand/7heredland.git".toList).1,
   (ensure_remote_tokenized_idempotent "ghp_token".toList
      "git@github.com:7heBlackLand/7heredland.git".toList).2 (by decide)⟩

/-- C2 (code_bug evidence): the clone flow of git_pull.py builds the
tokenized remote URL and then appends "Cloned repository from URL" to the
activity record with the credential still embedded, so the token substring
occurs verbatim in a persisted log line. -/
theorem git_pull_clone_log_line_contains_token :
    "SECRETTOKEN".toList <:+:
      git_pull_clone_log_line "SECRETTOKEN".toList
        "https://github.com/7heBlackLand/7heredland.git".toList :=
  ⟨"Cloned repository from https://".toList,
   "@github.com/7heBlackLand/7heredland.git".toList, by decide⟩

/-- C3: the default-branch lookup never raises (it is a total function of
the modelled API outcome) and falls back to the literal "main" both when
the HTTP request raises (network failure, timeout, unparsable body) and
when the response is a non-success one. -/
theorem get_github_default_branch_fallback (owner repo_name : String)
    (db : Option String) :
    get_github_default_branch owner repo_name HttpResult.failure = "main"
    ∧ get_github_default_branch owner repo_name (HttpResult.response false db)
      = "main" :=
  ⟨rfl, rfl⟩

/-- C4: with no divergence from the remote, the direct push succeeds and
safe_push returns success at once; the trace is the single push command,
so neither the rebase path nor the force-push path is executed. -/
theorem safe_push_no_divergence (env : PushEnv) (h : env.pushOk = true) :
    (safe_push env).1 = true
    ∧ (safe_push env).2 = [GitCmd.push]
    ∧ GitCmd.pullRebase ∉ (safe_push env).2
    ∧ GitCmd.forceWithLease ∉ (safe_push env).2 := by
  unfold safe_push
  rw [if_pos h]
  exact ⟨rfl, rfl, by simp, by simp⟩

/-- C4 witness: concrete run with a successful first push. -/
theorem safe_push_no_divergence_witness :
    (safe_push { pushOk := true, fetchOk := true, rebaseOk := true, forceOk := true }).1 = true
    ∧ (safe_push { pushOk := true, fetchOk := true, rebaseOk := true, forceOk := true }).2
      = [GitCmd.push]
    ∧ GitCmd.pullRebase ∉
        (safe_push { pushOk := true, fetchOk := true, rebaseOk := true, forceOk := true }).2
    ∧ GitCmd.forceWithLease ∉
        (safe_push { pushOk := true, fetchOk := true, rebaseOk := true, forceOk := true }).2 :=
  safe_push_no_divergence
    { pushOk := true, fetchOk := true, rebaseOk := true, forceOk := true } rfl

/-- C1 (code_bug evidence): when the first direct push is rejected and
both the fetch and the `pull --rebase` succeed, safe_push returns success
right after the clean rebase WITHOUT retrying the direct push: the trace
contains exactly one push command (the rejected initial one), so the
local commits are never uploaded even though True is returned — contrary
to the docstring "Returns True if push succeeded" and to the spec's
"retry the direct push once". -/
theorem safe_push_clean_rebase_no_retry :
    safe_push { pushOk := false, fetchOk := true, rebaseOk := true, forceOk := true }
      = (true, [GitCmd.push, GitCmd.fetchOrigin, GitCmd.pullRebase])
    ∧ (safe_push
        { pushOk := false, fetchOk := true, rebaseOk := true, forceOk := true }
       ).2.count GitCmd.push = 1 :=
  ⟨rfl, rfl⟩

/-- C5 (code_bug evidence): the recovery path of the upload procedure
(`upload_file_to_github`) issues `origin.push(refspec=..., force=True)`,
i.e. an unconditional `git push --force`, not `--force-with-lease` as its
own comment states: an unconditional force push is issued by the
push-with-recovery code. -/
theorem upload_push_recovery_unconditional_force :
    upload_push_recovery { pushOk := false, fetchOk := true, forceOk := true }
      = (true, [UploadCmd.pushRefspec, UploadCmd.fetchOrigin,
          UploadCmd.forceUnconditional]) :=
  rfl

/-- C7: every invocation of safe_push issues at most one rebase command
and at most one force-with-lease command, for every combination of
subprocess outcomes; the procedure is a total straight-line function, so
it terminates and does not loop. -/
theorem safe_push_bounded_recovery (env : PushEnv) :
    (safe_push env).2.count GitCmd.pullRebase ≤ 1
    ∧ (safe_push env).2.count GitCmd.forceWithLease ≤ 1 := by
  obtain ⟨p, f, r, fo⟩ := env
  cases p <;> cases f <;> cases r <;> cases fo <;> decide

/-- Concrete alignment environment for the C6 analysis: the remote
default branch is "main" (read from the symbolic-ref of origin/HEAD), the
local checked-out branch is "master". -/
def align_env_demo : AlignEnv :=
  { login := "7heBlackLand"
    repoPath := "/home/gost/7heBlackLand/7heredland"
    repoName := none
    api := HttpResult.failure
    symref := Except.ok "refs/remotes/origin/main"
    localBranch := Except.ok "master"
    checkoutOk := true
    upstreamOk := true }

/-- C6 counterexample: with the checkout failing, the branch is left at
"master" (unchanged, as the claim says) but no advisory failure is
recorded: the console and activity-record output are exactly the same as
in the successful run, and the log line still reads "Aligned ... master
-> main", so the switch failure is silently ignored. -/
theorem ensure_branch_alignment_no_failure_record :
    (ensure_branch_alignment_local { align_env_demo with checkoutOk := false }).console
      = (ensure_branch_alignment_local align_env_demo).console
    ∧ (ensure_branch_alignment_local { align_env_demo with checkoutOk := false }).log
      = (ensure_branch_alignment_local align_env_demo).log
    ∧ (ensure_branch_alignment_local
        { align_env_demo with checkoutOk := false }).finalBranch = "master"
    ∧ (ensure_branch_alignment_local align_env_demo).finalBranch = "main"
    ∧ (ensure_branch_alignment_local { align_env_demo with checkoutOk := false }).log
      = ["Aligned /home/gost/7heBlackLand/7heredland branch master -> main"] :=
  ⟨rfl, rfl, rfl, rfl, rfl⟩

/-- C6 (amended): after ensure_branch_alignment_local with a local branch
differing from the remote default, the checked-out branch equals the
remote default exactly when the checkout succeeds and is left unchanged
when it fails; in both cases the same console and activity-record lines
are emitted (the alignment attempt is always logged as "Aligned"), so a
checkout failure is reported no differently from a success. -/
theorem ensure_branch_alignment_amended (env : AlignEnv)
    (h : align_local env ≠ align_default env) :
    ((ensure_branch_alignment_local env).finalBranch
      = if env.checkoutOk then align_default env else align_local env)
    ∧ (∀ b : Bool,
        (ensure_branch_alignment_local { env with checkoutOk := b }).console
          = (ensure_branch_alignment_local env).console
        ∧ (ensure_branch_alignment_local { env with checkoutOk := b }).log
          = (ensure_branch_alignment_local env).log) := by
  constructor
  · unfold ensure_branch_alignment_local
    rw [if_pos h]
  · intro b
    have hd : align_default { env with checkoutOk := b } = align_default env := rfl
    have hl : align_local { env with checkoutOk := b } = align_local env := rfl
    unfold ensure_branch_alignment_local
    rw [hd, hl]
    by_cases hne : align_local env ≠ align_default env
    · rw [if_pos hne, if_pos hne]
      exact ⟨rfl, rfl⟩
    · rw [if_neg hne, if_neg hne]
      exact ⟨rfl, rfl⟩

/-- C6 amended witness: at the concrete environment (local "master",
remote default "main", checkout succeeding) the final branch is the
remote default, and the failing run appends the same activity-record
lines. -/
theorem ensure_branch_alignment_amended_witness :
    ((ensure_branch_alignment_local align_env_demo).finalBranch
      = if align_env_demo.checkoutOk then align_default align_env_demo
        else align_local align_env_demo)
    ∧ (ensure_branch_alignment_local { align_env_demo with checkoutOk := false }).log
      = (ensure_branch_alignment_local align_env_demo).log := by
  have h := ensure_branch_alignment_amended align_env_demo (by decide)
  exact ⟨h.1, (h.2 false).2⟩

/-- C8: the default-branch fallback chain of the alignment pass.  When a
repository name is supplied the API lookup result is used (whatever it
is, including its own "main" fallback); when it is not, a readable
symbolic-ref of origin/HEAD of the form refs/remotes/origin/branch yields
that branch name, and a failing symbolic-ref read falls back to the
literal "main". -/
theorem determine_default_branch_chain (login n : String) (api : HttpResult)
    (symref : Except Unit String) (b : List Char) (hb : '/' ∉ b) :
    determine_default_branch login (some n) api symref
      = get_github_default_branch login n api
    ∧ determine_default_branch login none api (Except.error ()) = "main"
    ∧ determine_default_branch login none api
        (Except.ok (List.asString ("refs/remotes/origin/".toList ++ b)))
      = List.asString b := by
  refine ⟨rfl, rfl, ?_⟩
  have hne : ("refs/remotes/origin/".toList ++ b) ≠ [] := by
    have hp : ("refs/remotes/origin/".toList : List Char)
        = 'r' :: "efs/remotes/origin/".toList := rfl
    rw [hp, List.cons_append]
    exact List.cons_ne_nil _ _
  have hpre : ("refs/remotes/origin/".toList : List Char)
      <+: "refs/remotes/origin/".toList ++ b :=
    List.prefix_append _ _
  show (if (List.asString ("refs/remotes/origin/".toList ++ b)).data ≠ []
        ∧ ("refs/remotes/origin/".toList
            <+: (List.asString ("refs/remotes/origin/".toList ++ b)).data) then
          List.asString (lastD (splitOnChar '/'
            (List.asString ("refs/remotes/origin/".toList ++ b)).data))
        else "main")
      = List.asString b
  have hdata : (List.asString ("refs/remotes/origin/".toList ++ b)).data
      = "refs/remotes/origin/".toList ++ b := rfl
  rw [hdata, if_pos ⟨hne, hpre⟩]
  have hsplit : ("refs/remotes/origin/".toList : List Char)
      = "refs/remotes/origin".toList ++ ['/'] := by decide
  have hlast : lastD (splitOnChar '/' ("refs/remotes/origin/".toList ++ b)) = b := by
    rw [hsplit, List.append_assoc, List.singleton_append]
    rw [lastD_splitOnChar_append '/' _ _ (List.mem_cons_self '/' b)]
    rw [splitOnChar_cons, if_pos rfl]
    rw [lastD_cons _ _ (splitOnChar_ne_nil '/' b)]
    rw [splitOnChar_not_mem '/' b hb]
    rfl
  rw [hlast]

/-- C8 witness: concrete instances of the three links of the chain, with
the symbolic-ref pointing at refs/remotes/origin/master. -/
theorem determine_default_branch_chain_witness :
    determine_default_branch "gost" (some "7heredland") HttpResult.failure
        (Except.error ())
      = get_github_default_branch "gost" "7heredland" HttpResult.failure
    ∧ determine_default_branch "gost" none HttpResult.failure (Except.error ())
      = "main"
    ∧ determine_default_branch "gost" none HttpResult.failure
        (Except.ok (List.asString ("refs/remotes/origin/".toList ++ "master".toList)))
      = List.asString "master".toList :=
  determine_default_branch_chain "gost" "7heredland" HttpResult.failure
    (Except.error ()) "master".toList (by decide)

/-- C9: the batch loop visits every working copy: the outcome list has
exactly one entry per repository, the outcome at index i is a function of
repository i alone (so one copy's failure cannot affect the others), and
a CalledProcessError raised while processing a copy surfaces as a
structured gitError outcome of that copy instead of aborting the batch. -/
theorem batch_workspace_manager_independent (token : List Char) (choice : Nat)
    (envs : List RepoEnv) :
    (batch_workspace_manager token choice envs).length = envs.length
    ∧ (∀ i : Nat, (batch_workspace_manager token choice envs).get? i
        = (envs.get? i).map (process_repo token choice))
    ∧ (∀ env : RepoEnv, ∀ e : StepErr,
        process_repo_raw choice env = Except.error e →
          (process_repo token choice env).step = BatchStep.gitError e) := by
  refine ⟨?_, ?_, ?_⟩
  · induction envs with
    | nil => rfl
    | cons e rest ih => simpa [batch_workspace_manager] using ih
  · intro i
    induction envs generalizing i with
    | nil => cases i <;> rfl
    | cons e rest ih =>
      cases i with
      | zero => rfl
      | succ j => simpa [batch_workspace_manager] using ih j
  · intro env e h
    simp [process_repo, h]

/-- Concrete batch entry whose pull fails, for the C9 witness. -/
def repo_env_demo : RepoEnv :=
  { name := "7heredland"
    originUrl := "https://github.com/7heBlackLand/7heredland.git".toList
    align :=
      { login := "7heBlackLand"
        repoPath := "/home/gost/7heBlackLand/7heredland"
        repoName := some "7heredland"
        api := HttpResult.response true (some "main")
        symref := Except.error ()
        localBranch := Except.ok "main"
        checkoutOk := true
        upstreamOk := true }
    pullOk := false
    addOk := true
    commitOk := true
    push := { pushOk := true, fetchOk := true, rebaseOk := true, forceOk := true } }

/-- C9 witness: a repository whose pull raises is reported as a
structured gitError outcome, and a two-element batch around it reports
both outcomes. -/
theorem batch_workspace_manager_independent_witness :
    (batch_workspace_manager "ghp_token".toList 1 [repo_env_demo]).length
      = ([repo_env_demo] : List RepoEnv).length
    ∧ (process_repo "ghp_token".toList 1 repo_env_demo).step
      = BatchStep.gitError StepErr.pullFailed :=
  ⟨(batch_workspace_manager_independent "ghp_token".toList 1 [repo_env_demo]).1,
   (batch_workspace_manager_independent "ghp_token".toList 1 [repo_env_demo]).2.2
     repo_env_demo StepErr.pullFailed rfl⟩
